import Mathlib

/-!
Verification of the shortcode token transform pipeline of the page-builder
script (`src/builder.js`, with `src/unnamed/part_000` an earlier revision of
the same file).  The definitions below are shallow embeddings of the source
functions: regex-based text scanning is modelled by an explicit fuel-indexed
character scanner whose acceptance semantics matches the JS regexes, the DOM
tree is modelled by a mutually inductive node/list type, network calls are
modelled by injected oracles of type `String -> Except String ...`, and the
stateful GrapesJS model object is modelled by explicit record states.
-/

/-- JS `\s` whitespace class (the characters relevant to this source). -/
def isJsWs (c : Char) : Bool :=
  c = ' ' || c = '\t' || c = '\n' || c = '\r' || c = '\x0b' || c = '\x0c'

/-- ASCII letters and digits, i.e. `[a-zA-Z0-9]`. -/
def isAsciiAlnum (c : Char) : Bool :=
  ('a' ≤ c && c ≤ 'z') || ('A' ≤ c && c ≤ 'Z') || ('0' ≤ c && c ≤ '9')

/-- Name class of the load-time regexes: `[a-zA-Z0-9_-]`
(`deserializeShortcodes`, builder.js:2159, and `renderShortcodesOnLoad`,
builder.js:2518/2532). -/
def isLoadNameChar (c : Char) : Bool :=
  isAsciiAlnum c || c = '_' || c = '-'

/-- Name class of `extractShortcodeName` (builder.js:67): `[a-zA-Z0-9_:-]`,
which additionally allows `:`. -/
def isEditorNameChar (c : Char) : Bool :=
  isLoadNameChar c || c = ':'

/-- JS `String.prototype.trim` on both ends. -/
def jsTrim (s : String) : String :=
  String.mk (((s.data.dropWhile isJsWs).reverse.dropWhile isJsWs).reverse)

/-- JS `v.replace(...)` escaping every `"` as `\"`, from the trait-change
handler (builder.js:1643). -/
def escapeQuotes (s : String) : String :=
  String.mk (s.data.flatMap (fun c => if c = '"' then ['\\', '"'] else [c]))

/-- One scanned segment of a text run: plain text, or a token carrying its
extracted name and the full matched substring `[name ...]`. -/
inductive Seg where
  | txt : List Char → Seg
  | tok : List Char → List Char → Seg
deriving DecidableEq

/-- Attempted regex match at a position just after `[`.  Models both
`\[([a-zA-Z0-9_-]+)(?:\s+([^\]]*))?\]` (with `reqWs = true`: after the
maximal name run, either `]` immediately or a whitespace character, then
everything up to the first `]`) and `\[([a-zA-Z0-9_-]+)([^\]]*)\]` (with
`reqWs = false`: any non-`]` run after the name).  Returns
`(name, middle, rest)` where the full match is `[ ++ name ++ middle ++ ]`. -/
def scMatchAt (nameChar : Char → Bool) (reqWs : Bool) (cs : List Char) :
    Option (List Char × List Char × List Char) :=
  let name := cs.takeWhile nameChar
  if name = [] then none
  else
    match cs.dropWhile nameChar with
    | [] => none
    | d :: rest =>
      if d = ']' then some (name, [], rest)
      else if reqWs && !(isJsWs d) then none
      else
        let middle := (d :: rest).takeWhile (fun e => !(e = ']'))
        match (d :: rest).dropWhile (fun e => !(e = ']')) with
        | ']' :: rest2 => some (name, middle, rest2)
        | _ => none

/-- Fuel-indexed left-to-right global scan (the `while (regex.exec(text))`
loops of the source).  `acc` is the pending plain-text run.  Each step
consumes at least one input character, so `fuel = input length` always
suffices; the fuel-0 fallback agrees with the empty-input case. -/
def scanFuel (nameChar : Char → Bool) (reqWs : Bool) :
    Nat → List Char → List Char → List Seg
  | 0, acc, cs => if acc ++ cs = [] then [] else [Seg.txt (acc ++ cs)]
  | _ + 1, acc, [] => if acc = [] then [] else [Seg.txt acc]
  | fuel + 1, acc, c :: cs =>
    if c = '[' then
      match scMatchAt nameChar reqWs cs with
      | some (name, middle, rest) =>
        (if acc = [] then [] else [Seg.txt acc]) ++
          Seg.tok name ('[' :: (name ++ middle ++ [']'])) ::
            scanFuel nameChar reqWs fuel [] rest
      | none => scanFuel nameChar reqWs fuel (acc ++ [c]) cs
    else scanFuel nameChar reqWs fuel (acc ++ [c]) cs

/-- Scan a whole character list. -/
def scanSegs (nameChar : Char → Bool) (reqWs : Bool) (s : List Char) : List Seg :=
  scanFuel nameChar reqWs s.length [] s

/-- `true` when no token segment was produced. -/
def noTokSegs (segs : List Seg) : Bool :=
  segs.all (fun s => match s with | .txt _ => true | .tok _ _ => false)

/-- Name of the first token segment, if any (JS non-global `.match`). -/
def firstTokName : List Seg → Option (List Char)
  | [] => none
  | .txt _ :: r => firstTokName r
  | .tok n _ :: _ => some n

/-- `extractShortcodeName` (builder.js:65-69): `if (!content) return null;`
then the first match of `/\[([a-zA-Z0-9_:-]+)(\s[^\]]*)?\]/`, returning its
first capture group. -/
def extractShortcodeName (content : String) : Option String :=
  if content = "" then none
  else (firstTokName (scanSegs isEditorNameChar true content.data)).map String.mk

/-- `attrStringFromValue` (builder.js:79-85): empty/absent values give `""`;
otherwise the value is trimmed, an all-whitespace value gives `""`, and the
(trimmed) value is emitted `name="v"` when it still contains whitespace and
`name=v` otherwise.  Absent (`undefined`/`null`) values are modelled by `""`. -/
def attrStringFromValue (name value : String) : String :=
  if value = "" then ""
  else
    let v := jsTrim value
    if v = "" then ""
    else if v.data.any isJsWs then name ++ "=\"" ++ v ++ "\""
    else name ++ "=" ++ v

/-- One attribute fragment of the `component:selected` trait-change rebuild
handler (builder.js:1640-1645): falsy values are dropped, every kept value is
emitted inside double quotes with internal quotes escaped. -/
def traitAttrFragment (name value : String) : String :=
  if value = "" then ""
  else name ++ "=\"" ++ escapeQuotes value ++ "\""

/-- One attribute fragment of the shortcode-config modal apply button
(builder.js:1383-1388): trimmed value, quoting only when the value contains
whitespace. -/
def modalAttrFragment (name value : String) : String :=
  let v := jsTrim value
  if v = "" then ""
  else if v.data.any isJsWs then name ++ "=\"" ++ v ++ "\""
  else name ++ "=" ++ v

mutual

/-- DOM node model: a text node, or an element with a tag, an attribute list
and child nodes. -/
inductive DNode where
  | text : String → DNode
  | elem : String → List (String × String) → DNodeList → DNode

/-- Child lists, mutually inductive with `DNode` so that all recursions stay
structural (and hence kernel-evaluable). -/
inductive DNodeList where
  | nil : DNodeList
  | cons : DNode → DNodeList → DNodeList

end

/-- Concatenation of node lists. -/
def dnAppend : DNodeList → DNodeList → DNodeList
  | .nil, b => b
  | .cons n a, b => .cons n (dnAppend a b)

/-- Whitespace splitter for `class` attribute values (empty runs dropped),
structural so that it evaluates inside the kernel. -/
def splitTokAux : List Char → List Char → List String
  | cur, [] => if cur = [] then [] else [String.mk cur]
  | cur, c :: cs =>
    if isJsWs c then
      if cur = [] then splitTokAux [] cs else String.mk cur :: splitTokAux [] cs
    else splitTokAux (cur ++ [c]) cs

/-- Class tokens of a `class` attribute value. -/
def classTokens (v : String) : List String :=
  splitTokAux [] v.data

/-- First-occurrence attribute lookup (the DOM `getAttribute`). -/
def attrLookup : List (String × String) → String → Option String
  | [], _ => none
  | (k, v) :: rest, key => if k = key then some v else attrLookup rest key

/-- `className` token test used by the `.shortcode-block` selector query
(builder.js:1928): the `class` attribute, split on whitespace, contains
`shortcode-block`. -/
def hasBlockClass (attrs : List (String × String)) : Bool :=
  match attrLookup attrs "class" with
  | some v => (classTokens v).any (fun t => decide (t = "shortcode-block"))
  | none => false

/-- Class string stamped on every generated placeholder block. -/
def shortcodeBlockClass : String :=
  "shortcode-block border border-dashed border-gray-400 rounded-md p-2 text-center text-gray-600"

/-- `<div style="color:gray;">{sc} not found</div>` (builder.js:1422). -/
def notFoundDiv (sc : String) : String :=
  "<div style=\"color:gray;\">" ++ sc ++ " not found</div>"

/-- `<div style="color:red;">Error loading {sc}</div>` — the deterministic
error fragment of builder.js:1429 and builder.js:2547. -/
def errorLoadingDiv (sc : String) : String :=
  "<div style=\"color:red;\">Error loading " ++ sc ++ "</div>"

/-- `Loading {sc}...` placeholder inner markup (builder.js:2177). -/
def loadingDiv (sc : String) : String :=
  "<div style=\"color:gray;padding:12px;text-align:center;\">Loading " ++ sc ++ "...</div>"

/-- Placeholder `<div>` built by `deserializeShortcodes` for one matched
token (builder.js:2172-2177). -/
def placeholderDiv (name full : List Char) : DNode :=
  DNode.elem "div"
    [("data-gjs-type", "shortcode-block"),
     ("data-shortcode-original", String.mk full),
     ("class", shortcodeBlockClass)]
    (.cons (.text (loadingDiv (String.mk name))) .nil)

/-- Turn the scanned segments of one text node into replacement nodes
(builder.js:2154-2193). -/
def segsToNodes : List Seg → DNodeList
  | [] => .nil
  | .txt t :: r => .cons (.text (String.mk t)) (segsToNodes r)
  | .tok name full :: r => .cons (placeholderDiv name full) (segsToNodes r)

/-- `deserializeShortcodes` on one text node: the node is replaced only when
its value contains both `[` and `]` (builder.js:2148); the replacement
splices placeholder blocks at the matches of
`/\[([a-zA-Z0-9_-]+)(?:\s+([^\]]*))?\]/g`. -/
def deserializeText (s : String) : DNodeList :=
  if '[' ∈ s.data ∧ ']' ∈ s.data then segsToNodes (scanSegs isLoadNameChar true s.data)
  else .cons (.text s) .nil

mutual

/-- `deserializeShortcodes` (builder.js:2131-2196) restricted to one node:
the `TreeWalker(NodeFilter.SHOW_TEXT)` visits text nodes only, so elements
keep their tag and attributes and only recurse into children. -/
def deserializeNode : DNode → DNodeList
  | .text s => deserializeText s
  | .elem tag attrs cs => .cons (.elem tag attrs (deserializeList cs)) .nil

/-- `deserializeShortcodes` over a child list. -/
def deserializeList : DNodeList → DNodeList
  | .nil => .nil
  | .cons n ns => dnAppend (deserializeNode n) (deserializeList ns)

end

/-- `deserializeShortcodes` on the parsed content of the wrapper `<div>`. -/
def deserializeShortcodes (ns : DNodeList) : DNodeList :=
  deserializeList ns

mutual

/-- `serializeShortcodes` (builder.js:1924-1939) restricted to one node:
an element matching `.shortcode-block` that carries a non-empty
`data-shortcode-original` attribute is replaced (via `el.outerHTML`) by that
token text, discarding all of its content; every other node is kept, its
children serialized in turn. -/
def serializeNode : DNode → DNodeList
  | .text s => .cons (.text s) .nil
  | .elem tag attrs cs =>
    if hasBlockClass attrs then
      match attrLookup attrs "data-shortcode-original" with
      | some v =>
        if v = "" then .cons (.elem tag attrs (serializeList cs)) .nil
        else .cons (.text v) .nil
      | none => .cons (.elem tag attrs (serializeList cs)) .nil
    else .cons (.elem tag attrs (serializeList cs)) .nil

/-- `serializeShortcodes` over a child list. -/
def serializeList : DNodeList → DNodeList
  | .nil => .nil
  | .cons n ns => dnAppend (serializeNode n) (serializeList ns)

end

/-- `serializeShortcodes` on the parsed `editor.getHtml()` content. -/
def serializeShortcodes (ns : DNodeList) : DNodeList :=
  serializeList ns

/-- `true` when the deserialize-time scan of `s` finds no token. -/
def cleanText (s : String) : Bool :=
  noTokSegs (scanSegs isLoadNameChar true s.data)

mutual

/-- Every text node of the tree scans token-free.  Attribute values are
deliberately not inspected: the `TreeWalker` visits `SHOW_TEXT` nodes only. -/
def cleanNode : DNode → Bool
  | .text s => cleanText s
  | .elem _ _ cs => cleanList cs

/-- `cleanNode` over a child list. -/
def cleanList : DNodeList → Bool
  | .nil => true
  | .cons n ns => cleanNode n && cleanList ns

end

mutual

/-- Some element of the tree matches `.shortcode-block`. -/
def hasBlockNode : DNode → Bool
  | .text _ => false
  | .elem _ attrs cs => hasBlockClass attrs || hasBlockList cs

/-- `hasBlockNode` over a child list. -/
def hasBlockList : DNodeList → Bool
  | .nil => false
  | .cons n ns => hasBlockNode n || hasBlockList ns

end

mutual

/-- Every `.shortcode-block` element of the tree carries a non-empty
`data-shortcode-original` attribute (the invariant every placeholder-creating
path of the source establishes together with any rendered content). -/
def blocksTagged : DNode → Bool
  | .text _ => true
  | .elem _ attrs cs =>
    (if hasBlockClass attrs then
      match attrLookup attrs "data-shortcode-original" with
      | some v => v ≠ ""
      | none => false
    else true) && blocksTaggedList cs

/-- `blocksTagged` over a child list. -/
def blocksTaggedList : DNodeList → Bool
  | .nil => true
  | .cons n ns => blocksTagged n && blocksTaggedList ns

end

/-- State of one `shortcode-block` GrapesJS model relevant to hydration:
its inner content markup, the `isRendered` flag, the
`data-shortcode-original` attribute and the `editable` flag. -/
structure SCState where
  components : String
  isRendered : Bool
  original : Option String
  editable : Bool
deriving DecidableEq

/-- Outcome of `fetchRenderedShortcode` (builder.js:1320-1340): a transport
error or non-2xx response is a thrown error (`Except.error`); a success
carries the optional `html` field of the JSON body. -/
def RenderResult : Type := Except String (Option String)

/-- The `json.html || fallback` truthiness coalescing of builder.js:1422:
a missing or empty `html` field falls back to the gray not-found div. -/
def htmlOrNotFound (htmlOpt : Option String) (sc : String) : String :=
  match htmlOpt with
  | some h => if h = "" then notFoundDiv sc else h
  | none => notFoundDiv sc

/-- The debounced render body of the `shortcode-block` model
(builder.js:1415-1431), as a state transformer given the outcome of the
fetch oracle for `sc`: on success it sets `isRendered`, replaces the content
with the returned html, stamps `data-shortcode-original` with the *requested*
token string and clears `editable`; on failure (the `catch` branch) it only
replaces the content with the error fragment.  The response is applied
unconditionally — there is no comparison against the current token of the
node. -/
def debouncedRenderStep (fetch : String → Except String (Option String))
    (sc : String) (st : SCState) : SCState :=
  match fetch sc with
  | .ok htmlOpt =>
    { components := htmlOrNotFound htmlOpt sc
      isRendered := true
      original := some sc
      editable := false }
  | .error _ => { st with components := errorLoadingDiv sc }

/-- Rendered markup chosen for one token by `renderShortcodesOnLoad`
(builder.js:2542-2548): the backend html (with not-found fallback) on
success, the error fragment on a per-token caught failure. -/
def renderOne (r : Except String (Option String)) (sc : String) : String :=
  match r with
  | .ok htmlOpt => htmlOrNotFound htmlOpt sc
  | .error _ => errorLoadingDiv sc

/-- Wrapper `<div>` built by `renderShortcodesOnLoad` for one token
(builder.js:2550-2555); its inner markup is modelled as a single text child. -/
def loadWrap (fetch : String → Except String (Option String))
    (name full : List Char) : DNode :=
  DNode.elem "div"
    [("class", shortcodeBlockClass),
     ("data-shortcode", String.mk name),
     ("data-shortcode-original", String.mk full)]
    (.cons (.text (renderOne (fetch (String.mk full)) (String.mk full))) .nil)

/-- `renderShortcodesOnLoad` over the scanned segments of one text node
(builder.js:2525-2566): text segments stay text, each token segment becomes
its wrapper div, each token hydrated independently through the oracle. -/
def renderLoadSegs (fetch : String → Except String (Option String)) :
    List Seg → DNodeList
  | [] => .nil
  | .txt t :: r => .cons (.text (String.mk t)) (renderLoadSegs fetch r)
  | .tok name full :: r => .cons (loadWrap fetch name full) (renderLoadSegs fetch r)

/-- `renderShortcodesOnLoad` on one text node: a node whose value matches
`/\[([a-zA-Z0-9_-]+)([^\]]*)\]/` is replaced by the composed fragment,
any other node is left alone (builder.js:2512-2519). -/
def renderShortcodesOnLoadText (fetch : String → Except String (Option String))
    (s : String) : DNodeList :=
  if noTokSegs (scanSegs isLoadNameChar false s.data) then .cons (.text s) .nil
  else renderLoadSegs fetch (scanSegs isLoadNameChar false s.data)

/-- Field description from `GET /admin/shortcodes/:name/config`. -/
structure SCField where
  name : String
  label : String
  ftype : String
  options : List String
  default : Option String

/-- Config response body: its `fields` list. -/
structure SCConfig where
  fields : List SCField

/-- Default attribute fragment for one config field in the `component:add`
auto-render (builder.js:1689-1697): a missing default coalesces to the empty
string, empty defaults are dropped, whitespace-containing defaults are
double-quoted. -/
def defaultAttrFragment (f : SCField) : String :=
  let d := f.default.getD ""
  if d = "" then ""
  else f.name ++ "=" ++ (if d.data.any isJsWs then "\"" ++ d ++ "\"" else d)

/-- Default shortcode string built on drop (builder.js:1689-1701). -/
def buildDefaultShortcode (name : String) (cfg : SCConfig) : String :=
  let attrs := String.intercalate " "
    (((cfg.fields.map defaultAttrFragment).filter (fun a => a ≠ "")))
  if attrs = "" then "[" ++ name ++ "]" else "[" ++ name ++ " " ++ attrs ++ "]"

/-- Observable outcome of the `component:add` auto-render handler
(builder.js:1676-1761): the final inner content, the token string sent to
the render endpoint (if any render was issued at all), and the
`data-shortcode-original` attribute. -/
structure AddOutcome where
  components : String
  renderRequested : Option String
  original : Option String
deriving DecidableEq

/-- The `component:add` handler (builder.js:1676-1761) given the config and
render oracles: the config fetch is awaited *first*; if it throws, the outer
catch (builder.js:1755-1760) replaces the content with
`Error loading [name]` and no render request is ever issued.  Only on config
success is the default token built, stamped and rendered. -/
def componentAddStep (fetchConfig : String → Except String SCConfig)
    (render : String → Except String (Option String))
    (name : String) : AddOutcome :=
  match fetchConfig name with
  | .error _ =>
    { components := "<div style=\"color:red;\">Error loading [" ++ name ++ "]</div>"
      renderRequested := none
      original := none }
  | .ok cfg =>
    let sc := buildDefaultShortcode name cfg
    { components := renderOne (render sc) sc
      renderRequested := some sc
      original := some sc }

/-- The `component:selected` trait-wiring handler (builder.js:1534-1668)
reduced to its effect on the trait list of the model: on config failure the catch
(builder.js:1665-1667) only logs, leaving the model untouched; on success the
traits are regenerated from the config fields. -/
def componentSelectedTraits (fetchConfig : String → Except String SCConfig)
    (name : String) (traits : List String) : List String :=
  match fetchConfig name with
  | .error _ => traits
  | .ok cfg => cfg.fields.map (fun f => f.name)

/-- URL requested by `fetchShortcodeConfig` (builder.js:1343-1347). -/
def fetchShortcodeConfigUrl (name : String) : String :=
  "/admin/shortcodes/" ++ name ++ "/config"

/-- `fetchShortcodeConfig` (builder.js:1343-1347) instrumented with the list
of network requests it issues: the fetch is unconditional — there is no
name validation of any kind before it. -/
def fetchShortcodeConfigStep (respond : String → Except String SCConfig)
    (name : String) : List String × Except String SCConfig :=
  ([fetchShortcodeConfigUrl name], respond (fetchShortcodeConfigUrl name))

/-- The token-name grammar `[A-Za-z0-9_-]+` named by the spec for local
validation. -/
def isValidTokenName (name : String) : Bool :=
  name ≠ "" && name.data.all isLoadNameChar

/-! ## Concrete scenario data -/

/-- Fetch oracle for the staleness scenario: the backend can still answer the
superseded token string. -/
def staleFetch : String → Except String (Option String) :=
  fun sc => if sc = "[x a=1]" then .ok (some "<p>one</p>") else .error "unreached"

/-- A placeholder whose current original token has already moved on to
`[x a=2]`. -/
def nodeAtA2 : SCState :=
  { components := "<p>two</p>"
    isRendered := true
    original := some "[x a=2]"
    editable := false }

/-- Fetch oracle that always fails (rejected transport). -/
def failFetch : String → Except String (Option String) :=
  fun _ => .error "network"

/-- Render oracle that always succeeds. -/
def okRender : String → Except String (Option String) :=
  fun _ => .ok (some "<p>hi</p>")

/-- Config oracle that always fails (404). -/
def failConfig : String → Except String SCConfig :=
  fun _ => .error "404"

/-- A never-hydrated placeholder in its default state
(`isRendered: false`, builder.js:1410). -/
def freshState : SCState :=
  { components := "[property]"
    isRendered := false
    original := none
    editable := true }

/-- A saved tree holding one hydrated placeholder block with server-rendered
content. -/
def demoSavedTree : DNodeList :=
  .cons (.elem "div"
    [("class", shortcodeBlockClass), ("data-shortcode-original", "[gallery count=4]")]
    (.cons (.text "<p>server rendered</p>") .nil)) .nil

/-- An element whose `class` attribute contains a bracketed, token-like
substring (a Tailwind arbitrary value), with token-free text content. -/
def tailwindTree : DNodeList :=
  .cons (.elem "div" [("class", "bg-[#fff] p-2")]
    (.cons (.text "Value [3, 4]") .nil)) .nil


/-! ## Helper lemmas -/

theorem dnAppend_nil : ∀ a : DNodeList, dnAppend a .nil = a
  | .nil => rfl
  | .cons n a => by simp [dnAppend, dnAppend_nil a]

theorem hasBlockList_append :
    ∀ a b : DNodeList, hasBlockList (dnAppend a b) = (hasBlockList a || hasBlockList b)
  | .nil, b => by simp [dnAppend, hasBlockList]
  | .cons n a, b => by
    simp [dnAppend, hasBlockList, hasBlockList_append a b, Bool.or_assoc]

theorem scanFuel_noTok (nc : Char → Bool) (rw : Bool) :
    ∀ (fuel : Nat) (acc cs : List Char),
      noTokSegs (scanFuel nc rw fuel acc cs) = true →
      scanFuel nc rw fuel acc cs =
        if acc ++ cs = [] then [] else [Seg.txt (acc ++ cs)] := by
  intro fuel
  induction fuel with
  | zero => intro acc cs _; simp [scanFuel]
  | succ fuel ih =>
    intro acc cs h
    match cs with
    | [] => simp [scanFuel]
    | c :: cs =>
      by_cases hc : c = '['
      · subst hc
        cases hm : scMatchAt nc rw cs with
        | some m =>
          exfalso
          obtain ⟨name, middle, rest⟩ := m
          rw [scanFuel] at h
          simp only [if_pos rfl, hm] at h
          simp [noTokSegs, List.all_append] at h
        | none =>
          have hstep : scanFuel nc rw (fuel + 1) acc ('[' :: cs) =
              scanFuel nc rw fuel (acc ++ ['[']) cs := by
            rw [scanFuel]; simp [hm]
          rw [hstep] at h ⊢
          rw [ih (acc ++ ['[']) cs h]
          simp [List.append_assoc]
      · have hstep : scanFuel nc rw (fuel + 1) acc (c :: cs) =
            scanFuel nc rw fuel (acc ++ [c]) cs := by
          rw [scanFuel]; simp [hc]
        rw [hstep] at h ⊢
        rw [ih (acc ++ [c]) cs h]
        simp [List.append_assoc]

theorem deserializeText_clean (s : String) (h : cleanText s = true) :
    deserializeText s = .cons (.text s) .nil := by
  unfold deserializeText
  split
  · rename_i hin
    have hne : s.data ≠ [] := by
      intro hd
      rw [hd] at hin
      simp at hin
    have hsc := scanFuel_noTok isLoadNameChar true s.data.length [] s.data h
    rw [scanSegs, hsc]
    simp [hne, segsToNodes]
  · rfl

mutual

theorem deserializeNode_clean : ∀ n : DNode, cleanNode n = true →
    deserializeNode n = .cons n .nil
  | .text s, h => by
    rw [deserializeNode]
    exact deserializeText_clean s h
  | .elem tag attrs cs, h => by
    rw [deserializeNode, deserializeList_clean cs (by simpa [cleanNode] using h)]

theorem deserializeList_clean : ∀ l : DNodeList, cleanList l = true →
    deserializeList l = l
  | .nil, _ => rfl
  | .cons n ns, h => by
    have h1 : cleanNode n = true := by
      have := h; rw [cleanList, Bool.and_eq_true] at this; exact this.1
    have h2 : cleanList ns = true := by
      have := h; rw [cleanList, Bool.and_eq_true] at this; exact this.2
    rw [deserializeList, deserializeNode_clean n h1, deserializeList_clean ns h2]
    rfl

end

mutual

theorem serializeNode_noBlock : ∀ n : DNode, blocksTagged n = true →
    hasBlockList (serializeNode n) = false
  | .text _, _ => by simp [serializeNode, hasBlockList, hasBlockNode]
  | .elem tag attrs cs, h => by
    have hsplit := h
    rw [blocksTagged, Bool.and_eq_true] at hsplit
    obtain ⟨h1, h2⟩ := hsplit
    rw [serializeNode]
    by_cases hb : hasBlockClass attrs
    · rw [if_pos hb]
      rw [if_pos hb] at h1
      cases hl : attrLookup attrs "data-shortcode-original" with
      | some v =>
        rw [hl] at h1
        have hv : v ≠ "" := by simpa using h1
        simp [hv, hasBlockList, hasBlockNode]
      | none => rw [hl] at h1; simp at h1
    · rw [if_neg hb]
      simp [hasBlockList, hasBlockNode, hb, serializeList_noBlock cs h2]

theorem serializeList_noBlock : ∀ l : DNodeList, blocksTaggedList l = true →
    hasBlockList (serializeList l) = false
  | .nil, _ => rfl
  | .cons n ns, h => by
    have hsplit := h
    rw [blocksTaggedList, Bool.and_eq_true] at hsplit
    rw [serializeList, hasBlockList_append,
      serializeNode_noBlock n hsplit.1, serializeList_noBlock ns hsplit.2]
    rfl

end

theorem split_at_rbracket (p : Char → Bool) (hp : p ']' = false) :
    ∀ (l rest : List Char), (∀ c ∈ l, p c = true) →
      (l ++ ']' :: rest).takeWhile p = l ∧ (l ++ ']' :: rest).dropWhile p = ']' :: rest := by
  intro l rest h
  induction l with
  | nil => simp [List.takeWhile, List.dropWhile, hp]
  | cons c l ih =>
    have hc : p c = true := h c (by simp)
    have ih' := ih (fun d hd => h d (by simp [hd]))
    simp [List.takeWhile_cons, List.dropWhile_cons, hc, ih'.1, ih'.2]

theorem scMatchAt_token (nc : Char → Bool) (rw : Bool) (name : List Char)
    (hne : name ≠ []) (hall : ∀ c ∈ name, nc c = true) (hrb : nc ']' = false) :
    scMatchAt nc rw (name ++ [']']) = some (name, [], []) := by
  have hsplit := split_at_rbracket nc hrb name [] hall
  unfold scMatchAt
  rw [hsplit.1, hsplit.2]
  simp [hne]

theorem scanSegs_token (nc : Char → Bool) (rw : Bool) (name : List Char)
    (hne : name ≠ []) (hall : ∀ c ∈ name, nc c = true) (hrb : nc ']' = false) :
    scanSegs nc rw ('[' :: (name ++ [']'])) = [Seg.tok name ('[' :: (name ++ [']']))] := by
  have hm := scMatchAt_token nc rw name hne hall hrb
  rw [scanSegs]
  have hlen : ('[' :: (name ++ [']'])).length = (name.length + 1) + 1 := by simp
  rw [hlen, scanFuel]
  simp [hm, scanFuel]

theorem bracket_data (name : String) :
    ("[" ++ name ++ "]").data = '[' :: (name.data ++ [']']) := by
  rw [String.data_append, String.data_append]
  simp

theorem deserializeText_token (name : String)
    (hne : name.data ≠ []) (hall : ∀ c ∈ name.data, isLoadNameChar c = true) :
    deserializeText ("[" ++ name ++ "]") =
      .cons (placeholderDiv name.data ('[' :: (name.data ++ [']']))) .nil := by
  have hdata := bracket_data name
  unfold deserializeText
  rw [hdata, scanSegs_token isLoadNameChar true name.data hne hall (by decide)]
  simp [segsToNodes]

theorem extractShortcodeName_token (name : String)
    (hne : name.data ≠ []) (hall : ∀ c ∈ name.data, isEditorNameChar c = true) :
    extractShortcodeName ("[" ++ name ++ "]") = some name := by
  have hdata := bracket_data name
  have hcne : ("[" ++ name ++ "]") ≠ "" := by
    intro h
    have hd : ("[" ++ name ++ "]").data = [] := by rw [h]
    rw [hdata] at hd
    simp at hd
  unfold extractShortcodeName
  rw [if_neg hcne, hdata, scanSegs_token isEditorNameChar true name.data hne hall (by decide)]
  rfl

theorem renderLoadSegs_append (fetch : String → Except String (Option String)) :
    ∀ a b : List Seg,
      renderLoadSegs fetch (a ++ b) =
        dnAppend (renderLoadSegs fetch a) (renderLoadSegs fetch b) := by
  intro a b
  induction a with
  | nil => simp [renderLoadSegs, dnAppend]
  | cons s r ih =>
    cases s with
    | txt t => simp [renderLoadSegs, dnAppend, ih]
    | tok n f => simp [renderLoadSegs, dnAppend, ih]

/-! ## Claim theorems -/

/-- Claim C1 (code bug): the spec mandates last-writer-wins — a hydration
response must be discarded when the original token of the placeholder has
changed since the request was issued — but `debouncedRender`
(builder.js:1415-1431) applies every response unconditionally.  Evaluated at
the failing input: a node whose current original token is `[x a=2]` receives
the late response for the superseded token `[x a=1]`, and the response
overwrites both the content and the `data-shortcode-original` attribute. -/
theorem stale_response_overwrites_node :
    nodeAtA2.original = some "[x a=2]" ∧
    (debouncedRenderStep staleFetch "[x a=1]" nodeAtA2).components = "<p>one</p>" ∧
    (debouncedRenderStep staleFetch "[x a=1]" nodeAtA2).original = some "[x a=1]" :=
  ⟨rfl, by decide, by decide⟩

/-- Claim C2 (confirmed): for plain text `T` with no bracket syntax,
serializing the materialization of `T` yields exactly the single text node
`T` again: `deserializeShortcodes` leaves such a text node untouched and
`serializeShortcodes` is the identity on it. -/
theorem roundtrip_plain_text (T : String) (h : '[' ∉ T.data) :
    serializeShortcodes (deserializeShortcodes (.cons (.text T) .nil)) =
      .cons (.text T) .nil := by
  have hdes : deserializeText T = .cons (.text T) .nil := by
    unfold deserializeText
    rw [if_neg]
    intro hcontr
    exact h hcontr.1
  simp [deserializeShortcodes, serializeShortcodes, deserializeList, deserializeNode,
    hdes, dnAppend, serializeList, serializeNode]

/-- Witness for C2 at `T = "Hello World"`. -/
theorem roundtrip_plain_text_witness :
    '[' ∉ "Hello World".data ∧
    serializeShortcodes (deserializeShortcodes (.cons (.text "Hello World") .nil)) =
      .cons (.text "Hello World") .nil :=
  ⟨by decide, roundtrip_plain_text "Hello World" (by decide)⟩

/-- Claim C3 (confirmed): on save, a `.shortcode-block` element carrying a
non-empty `data-shortcode-original` attribute is replaced by exactly its
original bracket-token text, discarding all of its (server-rendered)
children; and in any tree whose placeholder blocks all carry their original
token (the invariant every content-producing path of the source establishes),
the serialized output contains no `.shortcode-block` element at all, hence no
server-rendered html for any token. -/
theorem save_restores_token_text (tag : String) (attrs : List (String × String))
    (cs l : DNodeList) (v : String)
    (hb : hasBlockClass attrs = true)
    (ho : attrLookup attrs "data-shortcode-original" = some v)
    (hv : v ≠ "")
    (hl : blocksTaggedList l = true) :
    serializeNode (.elem tag attrs cs) = .cons (.text v) .nil ∧
    hasBlockList (serializeList l) = false := by
  constructor
  · rw [serializeNode, if_pos hb, ho]
    simp [hv]
  · exact serializeList_noBlock l hl

/-- Witness for C3 on a hydrated placeholder with server-rendered content. -/
theorem save_restores_token_text_witness :
    serializeNode (.elem "div"
        [("class", shortcodeBlockClass), ("data-shortcode-original", "[property limit=3]")]
        (.cons (.text "<p>server html</p>") .nil)) =
      .cons (.text "[property limit=3]") .nil ∧
    hasBlockList (serializeList demoSavedTree) = false :=
  save_restores_token_text "div"
    [("class", shortcodeBlockClass), ("data-shortcode-original", "[property limit=3]")]
    (.cons (.text "<p>server html</p>") .nil) demoSavedTree "[property limit=3]"
    (by decide) (by decide) (by decide) (by decide)

/-- Claim C4 (confirmed): when the fetch oracle fails for a token, the
debounced-render catch branch replaces the content of that node with the
deterministic error fragment `Error loading {tokenString}` instead of
propagating the error (the step function is total); the on-load hydration is
a segment-wise homomorphism, so a failing token affects only its own
segment; and a failing token segment yields its wrapper with the error
fragment inside. -/
theorem hydration_failure_node_local
    (fetch : String → Except String (Option String)) (sc : String) (st : SCState)
    (e : String) (a b : List Seg) (name full : List Char)
    (hsc : fetch sc = .error e) :
    (debouncedRenderStep fetch sc st).components = errorLoadingDiv sc ∧
    renderLoadSegs fetch (a ++ b) =
      dnAppend (renderLoadSegs fetch a) (renderLoadSegs fetch b) ∧
    (fetch (String.mk full) = .error e →
      renderLoadSegs fetch [Seg.tok name full] =
        .cons (.elem "div"
          [("class", shortcodeBlockClass),
           ("data-shortcode", String.mk name),
           ("data-shortcode-original", String.mk full)]
          (.cons (.text (errorLoadingDiv (String.mk full))) .nil)) .nil) := by
  refine ⟨?_, renderLoadSegs_append fetch a b, ?_⟩
  · simp [debouncedRenderStep, hsc]
  · intro hf
    simp [renderLoadSegs, loadWrap, renderOne, hf]

/-- Witness for C4 with an always-failing fetch oracle. -/
theorem hydration_failure_node_local_witness :
    (debouncedRenderStep failFetch "[x]" freshState).components = errorLoadingDiv "[x]" ∧
    renderLoadSegs failFetch [Seg.tok ['x'] ['[', 'x', ']']] =
      .cons (.elem "div"
        [("class", shortcodeBlockClass),
         ("data-shortcode", String.mk ['x']),
         ("data-shortcode-original", String.mk ['[', 'x', ']'])]
        (.cons (.text (errorLoadingDiv (String.mk ['[', 'x', ']']))) .nil)) .nil := by
  have h := hydration_failure_node_local failFetch "[x]" freshState "network"
    [] [] ['x'] ['[', 'x', ']'] rfl
  exact ⟨h.1, h.2.2 rfl⟩

/-- Claim C5 counterexample: for a never-hydrated placeholder
(`isRendered = false` by default, builder.js:1410) whose injected fetch
rejects, the content does become the error fragment but `isRendered` is
`false`, not `true`: the success branch alone sets `isRendered`
(builder.js:1420), the catch branch never does. -/
theorem failed_hydration_flag_stays_false :
    (debouncedRenderStep failFetch "[property]" freshState).components =
      errorLoadingDiv "[property]" ∧
    (debouncedRenderStep failFetch "[property]" freshState).isRendered = false :=
  ⟨by decide, by decide⟩

/-- Claim C5 (amended): after a hydration failure the content of the
placeholder equals the error fragment referencing the requested token
string, while `isRendered` and the `data-shortcode-original` attribute keep
their previous values — `isRendered` is `true` after a failure only when a
previous hydration had already succeeded. -/
theorem hydration_failure_error_state
    (fetch : String → Except String (Option String)) (sc : String)
    (st : SCState) (e : String) (h : fetch sc = .error e) :
    (debouncedRenderStep fetch sc st).components = errorLoadingDiv sc ∧
    (debouncedRenderStep fetch sc st).isRendered = st.isRendered ∧
    (debouncedRenderStep fetch sc st).original = st.original := by
  simp [debouncedRenderStep, h]

/-- Witness for the amended C5 statement. -/
theorem hydration_failure_error_state_witness :
    (debouncedRenderStep failFetch "[gallery]" freshState).components =
      errorLoadingDiv "[gallery]" ∧
    (debouncedRenderStep failFetch "[gallery]" freshState).isRendered =
      freshState.isRendered ∧
    (debouncedRenderStep failFetch "[gallery]" freshState).original =
      freshState.original :=
  hydration_failure_error_state failFetch "[gallery]" freshState "network" rfl

/-- Claim C6 counterexample: the trait-change rebuild path
(builder.js:1640-1645) double-quotes every value — the whitespace-free value
`3` is emitted as `limit="3"`, not as the unquoted `limit=3` the claim
requires for every serialization path. -/
theorem trait_rebuild_always_quotes :
    traitAttrFragment "limit" "3" = "limit=\"3\"" ∧
    traitAttrFragment "limit" "3" ≠ "limit=3" :=
  ⟨by decide, by decide⟩

/-- Claim C6 (amended): `attrStringFromValue` (and the identically-quoting
modal apply path) trims the value and emits `key="value"` exactly when the
trimmed value contains whitespace and `key=value` otherwise; the
trait-change rebuild path instead always emits `key="value"` with internal
double quotes escaped, even for whitespace-free values. -/
theorem attr_value_quoting (name v : String) (h1 : v ≠ "") (h2 : jsTrim v = v) :
    (v.data.any isJsWs = true → attrStringFromValue name v = name ++ "=\"" ++ v ++ "\"") ∧
    (v.data.any isJsWs = false → attrStringFromValue name v = name ++ "=" ++ v) ∧
    modalAttrFragment name v = attrStringFromValue name v ∧
    traitAttrFragment name v = name ++ "=\"" ++ escapeQuotes v ++ "\"" := by
  have hA : attrStringFromValue name v =
      if v.data.any isJsWs then name ++ "=\"" ++ v ++ "\"" else name ++ "=" ++ v := by
    unfold attrStringFromValue
    rw [if_neg h1]
    simp only [h2, if_neg h1]
  have hM : modalAttrFragment name v =
      if v.data.any isJsWs then name ++ "=\"" ++ v ++ "\"" else name ++ "=" ++ v := by
    unfold modalAttrFragment
    simp only [h2, if_neg h1]
  refine ⟨fun hws => ?_, fun hws => ?_, ?_, ?_⟩
  · rw [hA, if_pos hws]
  · rw [hA, hws]
    simp
  · rw [hM, hA]
  · unfold traitAttrFragment
    rw [if_neg h1]

/-- Witness for the amended C6 statement at the spec examples `limit=3` and
`title="Hello World"`. -/
theorem attr_value_quoting_witness :
    attrStringFromValue "limit" "3" = "limit=3" ∧
    attrStringFromValue "title" "Hello World" = "title=\"Hello World\"" ∧
    traitAttrFragment "limit" "3" = "limit=\"3\"" :=
  ⟨(attr_value_quoting "limit" "3" (by decide) (by decide)).2.1 (by decide),
   (attr_value_quoting "title" "Hello World" (by decide) (by decide)).1 (by decide),
   (attr_value_quoting "limit" "3" (by decide) (by decide)).2.2.2⟩

/-- Claim C7 counterexample: with a failing config oracle but a perfectly
healthy render endpoint, the `component:add` path (builder.js:1676-1761)
issues no render request at all and displays the error fragment — the config
failure does prevent the dropped token from being hydrated and displayed. -/
theorem config_failure_blocks_add_hydration :
    (componentAddStep failConfig okRender "gallery").renderRequested = none ∧
    (componentAddStep failConfig okRender "gallery").components =
      "<div style=\"color:red;\">Error loading [gallery]</div>" :=
  ⟨by decide, by decide⟩

/-- Claim C7 (amended): a config failure is harmless in the
`component:selected` path — the trait list (and everything else about the
model) is left untouched — and the page-load hydration path never consults
the config endpoint at all, hydrating every scanned token through the render
oracle alone; but in the `component:add` path a config failure aborts
hydration entirely (no render request is issued). -/
theorem config_failure_scope
    (fetchConfig : String → Except String SCConfig)
    (fetch : String → Except String (Option String))
    (name : String) (traits : List String) (e : String)
    (h : fetchConfig name = .error e) :
    componentSelectedTraits fetchConfig name traits = traits ∧
    (componentAddStep fetchConfig fetch name).renderRequested = none ∧
    (∀ nm full r, renderLoadSegs fetch (Seg.tok nm full :: r) =
      .cons (loadWrap fetch nm full) (renderLoadSegs fetch r)) := by
  refine ⟨?_, ?_, fun nm full r => rfl⟩
  · simp [componentSelectedTraits, h]
  · simp [componentAddStep, h]

/-- Witness for the amended C7 statement. -/
theorem config_failure_scope_witness :
    componentSelectedTraits failConfig "gallery" ["limit"] = ["limit"] ∧
    (componentAddStep failConfig okRender "gallery").renderRequested = none ∧
    renderLoadSegs okRender [Seg.tok ['x'] ['[', 'x', ']']] =
      .cons (loadWrap okRender ['x'] ['[', 'x', ']']) (renderLoadSegs okRender []) := by
  have h := config_failure_scope failConfig okRender "gallery" ["limit"] "404" rfl
  exact ⟨h.1, h.2.1, h.2.2 ['x'] ['[', 'x', ']'] []⟩

/-- Claim C8 (code bug): `fetchShortcodeConfig` (builder.js:1343-1347)
performs no local validation whatsoever — for every name, valid or not, it
issues exactly one network request to the interpolated URL.  Evaluated at
the failing input `a:b`, which fails the `[A-Za-z0-9_-]+` grammar yet is
still sent to the backend. -/
theorem fetchShortcodeConfig_always_fetches
    (respond : String → Except String SCConfig) (name : String) :
    (fetchShortcodeConfigStep respond name).1 = [fetchShortcodeConfigUrl name] ∧
    isValidTokenName "a:b" = false ∧
    (fetchShortcodeConfigStep respond "a:b").1 = ["/admin/shortcodes/a:b/config"] :=
  ⟨rfl, by decide, rfl⟩

/-- Claim C9 counterexample: the token `[foo:bar]` is recognized by the
editor-side scanner (`extractShortcodeName` accepts `:` in names), but the
load-time re-scan does not materialize it — `deserializeShortcodes` leaves
the text node untouched because its regex name class omits `:` — and the
`renderShortcodesOnLoad` regex extracts only the truncated name `foo`. -/
theorem colon_name_not_rescanned_on_load :
    extractShortcodeName "[foo:bar]" = some "foo:bar" ∧
    deserializeText "[foo:bar]" = .cons (.text "[foo:bar]") .nil ∧
    firstTokName (scanSegs isLoadNameChar false "[foo:bar]".data) = some "foo".data :=
  ⟨by decide, rfl, by decide⟩

/-- Claim C9 (amended): `extractShortcodeName` recognizes every token
`[name]` whose non-empty name draws on `[A-Za-z0-9_:-]` and returns the name
exactly (hence case-sensitively); the load-time re-scan materializes the
token only under the narrower `[A-Za-z0-9_-]` grammar, which excludes `:`. -/
theorem scanner_name_grammar (name : String)
    (hne : name.data ≠ []) (hed : ∀ c ∈ name.data, isEditorNameChar c = true) :
    extractShortcodeName ("[" ++ name ++ "]") = some name ∧
    ((∀ c ∈ name.data, isLoadNameChar c = true) →
      deserializeText ("[" ++ name ++ "]") =
        .cons (placeholderDiv name.data ('[' :: (name.data ++ [']']))) .nil) :=
  ⟨extractShortcodeName_token name hne hed,
   fun hld => deserializeText_token name hne hld⟩

/-- Witness for the amended C9 statement at the name `gallery_2`. -/
theorem scanner_name_grammar_witness :
    extractShortcodeName "[gallery_2]" = some "gallery_2" ∧
    deserializeText "[gallery_2]" =
      .cons (placeholderDiv "gallery_2".data ('[' :: ("gallery_2".data ++ [']']))) .nil :=
  ⟨(scanner_name_grammar "gallery_2" (by decide) (by decide)).1,
   (scanner_name_grammar "gallery_2" (by decide) (by decide)).2 (by decide)⟩

/-- Claim C10 (confirmed): materialization at load time scans only text
nodes — an element always keeps its tag and its attribute list unchanged
(so a token-like substring inside an attribute value such as `bg-[#fff]` is
never replaced), and a tree whose text nodes contain no scannable token
passes through `deserializeShortcodes` byte-for-byte, whatever its attribute
values contain. -/
theorem materialize_text_nodes_only (tag : String) (attrs : List (String × String))
    (cs l : DNodeList) (hl : cleanList l = true) :
    (∃ cs2, deserializeNode (.elem tag attrs cs) = .cons (.elem tag attrs cs2) .nil) ∧
    deserializeList l = l :=
  ⟨⟨deserializeList cs, rfl⟩, deserializeList_clean l hl⟩

/-- Witness for C10 on a tree carrying a bracketed Tailwind class value. -/
theorem materialize_text_nodes_only_witness :
    (∃ cs2, deserializeNode (.elem "div" [("class", "bg-[#fff] p-2")]
        (.cons (.text "hello") .nil)) =
      .cons (.elem "div" [("class", "bg-[#fff] p-2")] cs2) .nil) ∧
    deserializeList tailwindTree = tailwindTree :=
  materialize_text_nodes_only "div" [("class", "bg-[#fff] p-2")]
    (.cons (.text "hello") .nil) tailwindTree (by decide)
